import Mathlib

/-!
Verification of the document-summariser pipeline: the extraction
dispatcher (`extractTextFromFile` in `App.jsx`), the empty-input
short-circuit in `handleSummarise`, the Gemini summarisation client
(`gemini.js`: credential check, prompt construction with length mapping
and 180000-character truncation, envelope navigation, defensive JSON
decoding of the model reply), and PDF text extraction
(`extractPdfText.js`).

JavaScript strings are modelled as Lean `String` (a list of characters),
JS `undefined` for optional values as `Option.none`, thrown errors as
explicit outcome constructors, and `fetch` as an explicit response
argument plus a list of issued requests returned alongside the outcome.
-/

namespace DocSummariser

/-- Characters used in the JSON grammar, named to keep literals readable. -/
def quoteChar : Char := Char.ofNat 34

def backslashChar : Char := Char.ofNat 92

def lbraceChar : Char := Char.ofNat 123

def rbraceChar : Char := Char.ofNat 125

/-- JSON values as produced by `JSON.parse`.  Numbers are kept as their
source lexeme: no claim depends on numeric semantics, only on whether a
number is or is not a string. -/
inductive Json where
  | null : Json
  | bool (b : Bool) : Json
  | num (lexeme : String) : Json
  | str (s : String) : Json
  | arr (items : List Json) : Json
  | obj (fields : List (String × Json)) : Json

/-- JSON whitespace (space, tab, line feed, carriage return). -/
def isJsonWs (c : Char) : Bool :=
  c == ' ' || c == Char.ofNat 9 || c == Char.ofNat 10 || c == Char.ofNat 13

def skipWs (cs : List Char) : List Char :=
  cs.dropWhile isJsonWs

def hexVal (c : Char) : Option Nat :=
  if '0' ≤ c && c ≤ '9' then some (c.toNat - 48)
  else if 'a' ≤ c && c ≤ 'f' then some (c.toNat - 87)
  else if 'A' ≤ c && c ≤ 'F' then some (c.toNat - 70)
  else none

/-- Body of a JSON string literal, after the opening quote: returns the
decoded string and the input past the closing quote.  Mirrors the
`JSON.parse` string grammar: the listed escapes, `\uXXXX`, and a
rejection of raw control characters. -/
def parseStringBody (acc : List Char) : List Char → Option (String × List Char)
  | [] => none
  | c :: rest =>
    if c == quoteChar then some (⟨acc.reverse⟩, rest)
    else if c == backslashChar then
      match rest with
      | [] => none
      | e :: r2 =>
        if e == quoteChar then parseStringBody (quoteChar :: acc) r2
        else if e == backslashChar then parseStringBody (backslashChar :: acc) r2
        else if e == '/' then parseStringBody ('/' :: acc) r2
        else if e == 'b' then parseStringBody (Char.ofNat 8 :: acc) r2
        else if e == 'f' then parseStringBody (Char.ofNat 12 :: acc) r2
        else if e == 'n' then parseStringBody (Char.ofNat 10 :: acc) r2
        else if e == 'r' then parseStringBody (Char.ofNat 13 :: acc) r2
        else if e == 't' then parseStringBody (Char.ofNat 9 :: acc) r2
        else if e == 'u' then
          match r2 with
          | h1 :: h2 :: h3 :: h4 :: r3 =>
            match hexVal h1, hexVal h2, hexVal h3, hexVal h4 with
            | some a, some b, some c2, some d =>
              parseStringBody (Char.ofNat (a * 4096 + b * 256 + c2 * 16 + d) :: acc) r3
            | _, _, _, _ => none
          | _ => none
        else none
    else if c.toNat < 32 then none
    else parseStringBody (c :: acc) rest

/-- Optional fraction and exponent parts of a JSON number, appended to the
lexeme accumulated so far. -/
def parseFracExp (pre : String) (cs : List Char) : Option (String × List Char) :=
  let afterFrac : Option (String × List Char) :=
    match cs with
    | '.' :: r =>
      let ds := r.takeWhile Char.isDigit
      if ds.isEmpty then none
      else some (pre ++ "." ++ ⟨ds⟩, r.dropWhile Char.isDigit)
    | _ => some (pre, cs)
  match afterFrac with
  | none => none
  | some (p2, cs2) =>
    match cs2 with
    | e :: r =>
      if e == 'e' || e == 'E' then
        let signAndRest : String × List Char :=
          match r with
          | '+' :: rr => ("+", rr)
          | '-' :: rr => ("-", rr)
          | _ => ("", r)
        let ds := signAndRest.2.takeWhile Char.isDigit
        if ds.isEmpty then none
        else some (p2 ++ String.singleton e ++ signAndRest.1 ++ ⟨ds⟩,
          signAndRest.2.dropWhile Char.isDigit)
      else some (p2, cs2)
    | [] => some (p2, cs2)

/-- A JSON number: optional minus sign, integer part (`0` or a nonzero
digit followed by digits), optional fraction and exponent. -/
def parseNumber (cs : List Char) : Option (String × List Char) :=
  let signAndRest : String × List Char :=
    match cs with
    | '-' :: r => ("-", r)
    | _ => ("", cs)
  match signAndRest.2 with
  | [] => none
  | c :: r =>
    if c == '0' then parseFracExp (signAndRest.1 ++ "0") r
    else if c.isDigit then
      let ds := signAndRest.2.takeWhile Char.isDigit
      parseFracExp (signAndRest.1 ++ ⟨ds⟩) (signAndRest.2.dropWhile Char.isDigit)
    else none

/-- Parser mode: a full value, the remaining items of an array, or the
remaining members of an object (with the items accumulated so far). -/
inductive PMode where
  | val : PMode
  | arrItems (acc : List Json) : PMode
  | objItems (acc : List (String × Json)) : PMode

/-- Recursive-descent JSON parser, fuel-indexed so that recursion is
structural (every recursive call also consumes input, so fuel equal to
the input length plus one is always sufficient). -/
def parseF : Nat → PMode → List Char → Option (Json × List Char)
  | 0, _, _ => none
  | Nat.succ fuel, PMode.val, cs =>
    match skipWs cs with
    | [] => none
    | c :: rest =>
      if c == quoteChar then
        match parseStringBody [] rest with
        | some (s, r) => some (Json.str s, r)
        | none => none
      else if c == lbraceChar then
        match skipWs rest with
        | [] => none
        | d :: r2 =>
          if d == rbraceChar then some (Json.obj [], r2)
          else parseF fuel (PMode.objItems []) (d :: r2)
      else if c == '[' then
        match skipWs rest with
        | ']' :: r2 => some (Json.arr [], r2)
        | r2 => parseF fuel (PMode.arrItems []) r2
      else if c == 't' then
        match rest with
        | 'r' :: 'u' :: 'e' :: r2 => some (Json.bool true, r2)
        | _ => none
      else if c == 'f' then
        match rest with
        | 'a' :: 'l' :: 's' :: 'e' :: r2 => some (Json.bool false, r2)
        | _ => none
      else if c == 'n' then
        match rest with
        | 'u' :: 'l' :: 'l' :: r2 => some (Json.null, r2)
        | _ => none
      else if c == '-' || c.isDigit then
        match parseNumber (c :: rest) with
        | some (lx, r) => some (Json.num lx, r)
        | none => none
      else none
  | Nat.succ fuel, PMode.arrItems acc, cs =>
    match parseF fuel PMode.val cs with
    | none => none
    | some (j, rest) =>
      match skipWs rest with
      | ',' :: r2 => parseF fuel (PMode.arrItems (acc ++ [j])) r2
      | ']' :: r2 => some (Json.arr (acc ++ [j]), r2)
      | _ => none
  | Nat.succ fuel, PMode.objItems acc, cs =>
    match skipWs cs with
    | c :: rest =>
      if c == quoteChar then
        match parseStringBody [] rest with
        | none => none
        | some (k, r1) =>
          match skipWs r1 with
          | ':' :: r3 =>
            match parseF fuel PMode.val r3 with
            | none => none
            | some (v, r4) =>
              match skipWs r4 with
              | ',' :: r6 => parseF fuel (PMode.objItems (acc ++ [(k, v)])) r6
              | d :: r6 =>
                if d == rbraceChar then some (Json.obj (acc ++ [(k, v)]), r6)
                else none
              | [] => none
          | _ => none
      else none
    | [] => none

/-- Model of `JSON.parse`: parse one value, allow trailing whitespace
only. -/
def jsonParse (s : String) : Option Json :=
  match parseF (s.data.length + 1) PMode.val s.data with
  | some (j, rest) => if (skipWs rest).isEmpty then some j else none
  | none => none

/-- Model of `raw.match(/\{[\s\S]*\}/)`: with this greedy pattern a match
exists exactly when some closing brace follows the first opening brace,
and the matched substring runs from the first opening brace to the last
closing brace of the whole string. -/
def jsonLikeMatch (s : String) : Option String :=
  let cs := s.data
  match List.findIdx? (· == lbraceChar) cs, List.findIdx? (· == rbraceChar) cs.reverse with
  | some i, some k =>
    let j := cs.length - 1 - k
    if i < j then some ⟨(cs.drop i).take (j - i + 1)⟩ else none
  | _, _ => none

/-- The fallback object `\x7b summary: raw, key_points: [] \x7d`. -/
def fallbackResult (raw : String) : Json :=
  Json.obj [("summary", Json.str raw), ("key_points", Json.arr [])]

/-- Decoding of the raw model reply in `summariseWithGemini`:
`return match ? JSON.parse(match[0]) : fallback` inside a
`try ... catch` that returns the fallback. -/
def decodeReply (raw : String) : Json :=
  match jsonLikeMatch raw with
  | some m =>
    match jsonParse m with
    | some j => j
    | none => fallbackResult raw
  | none => fallbackResult raw

/-- JS property access `o?.k`: `none` models `undefined`.  For duplicate
keys the later member wins, as in a JS object literal. -/
def getField : Json → String → Option Json
  | Json.obj fields, k => fields.reverse.lookup k
  | _, _ => none

/-- JS index access `a?.[i]` on an array value. -/
def getIdx : Json → Nat → Option Json
  | Json.arr items, i => items.get? i
  | _, _ => none

/-- The navigation `json?.candidates?.[0]?.content?.parts?.[0]?.text`
over the provider's response envelope; `none` models `undefined`. -/
def navigateText (j : Json) : Option Json :=
  ((((((getField j "candidates").bind (fun c => getIdx c 0)).bind
    (fun c => getField c "content")).bind
    (fun c => getField c "parts")).bind
    (fun p => getIdx p 0)).bind
    (fun p => getField p "text"))

/-- The raw payload with the `?? "\x7b\x7d"` default: the two-character
brace string replaces an absent (`undefined`) or `null` payload. -/
def rawOfEnvelope (j : Json) : Json :=
  match navigateText j with
  | none => Json.str "\x7b\x7d"
  | some Json.null => Json.str "\x7b\x7d"
  | some v => v

/-- Every element of the list is a JSON string. -/
def isStringArr : List Json → Bool
  | [] => true
  | Json.str _ :: rest => isStringArr rest
  | _ => false

/-- The well-formed-pair shape claimed for a SummaryResult: a `summary`
field holding a string and a `key_points` field holding an array of
strings. -/
def isWellFormedPair (j : Json) : Bool :=
  match getField j "summary", getField j "key_points" with
  | some (Json.str _), some (Json.arr pts) => isStringArr pts
  | _, _ => false

/-- Property names a plain object literal inherits from
`Object.prototype` in the browser environment this code runs in.
Looking any of them up on `\x7b short: ..., medium: ..., long: ... \x7d`
yields a truthy value — a built-in function, or `Object.prototype`
itself for `__proto__` — never `undefined`. -/
def objectProtoProps : List String :=
  ["constructor", "hasOwnProperty", "isPrototypeOf", "propertyIsEnumerable",
   "toLocaleString", "toString", "valueOf", "__proto__",
   "__defineGetter__", "__defineSetter__", "__lookupGetter__", "__lookupSetter__"]

/-- Result of `\x7b short: ..., medium: ..., long: ... \x7d[length] || "≈150-250 words"`:
either a directive string (an own property, or the fallback), or a
truthy member inherited from `Object.prototype`. -/
inductive TargetValue where
  | directive (s : String)
  | protoMember (name : String)

/-- The bracket lookup with the `||` default: an own property gives its
directive string; a property inherited from `Object.prototype` is truthy,
so `||` passes it through; only an absent property (`undefined`, falsy)
reaches the medium fallback. -/
def lengthTarget (length : String) : TargetValue :=
  if length = "short" then TargetValue.directive "≈80-120 words"
  else if length = "medium" then TargetValue.directive "≈150-250 words"
  else if length = "long" then TargetValue.directive "≈300-450 words"
  else if length ∈ objectProtoProps then TargetValue.protoMember length
  else TargetValue.directive "≈150-250 words"

/-- The string the template literal interpolates for an inherited
member: ECMAScript's NativeFunction form for the built-in methods (the
`constructor` member is the `Object` function, so it renders under that
name), and the `"[object Object]"` rendering of `Object.prototype` for
the `__proto__` accessor. -/
def protoMemberString (name : String) : String :=
  if name = "__proto__" then "[object Object]"
  else if name = "constructor" then "function Object() \x7b [native code] \x7d"
  else "function " ++ name ++ "() \x7b [native code] \x7d"

/-- String interpolation of a lookup result. -/
def renderTarget : TargetValue → String
  | TargetValue.directive s => s
  | TargetValue.protoMember name => protoMemberString name

/-- The string interpolated as the length directive of the prompt. -/
def targetOf (length : String) : String :=
  renderTarget (lengthTarget length)

/-- The destructuring default `length = "medium"`: an omitted argument
(`none`, JS `undefined`) becomes `"medium"` before the lookup. -/
def targetOfArg (lengthArg : Option String) : String :=
  targetOf (lengthArg.getD "medium")

/-- `text.slice(0, 180000)`: the first 180000 characters. -/
def sliceBound (text : String) : String :=
  ⟨text.data.take 180000⟩

/-- The prompt template up to the length directive. -/
def promptHead : String :=
  "\nYou are a document summariser. Respond ONLY as strict JSON:\n\x7b\"summary\":\"...\", \"key_points\":[\"...\",\"...\",\"...\"]\x7d\n\nRules:\n- length: "

/-- The prompt template between the length directive and the bounded
text. -/
def promptMid : String :=
  "\n- concise & neutral\n- keep names, numbers, definitions\n- if input empty/garbled: \x7b\"summary\":\"No readable content.\", \"key_points\":[]\x7d\n\nTEXT:\n\"\"\""

/-- The prompt template after the bounded text. -/
def promptTail : String := "\"\"\"\n"

/-- The outbound prompt of `summariseWithGemini`, with the length
directive and the bounded text interpolated into the template. -/
def promptOf (target : String) (text : String) : String :=
  promptHead ++ target ++ promptMid ++ sliceBound text ++ promptTail

/-- JS falsiness of the credential `!KEY`: the env value is a string or
`undefined`, so falsy means absent or the empty string. -/
def keyFalsy : Option String → Bool
  | none => true
  | some s => s.isEmpty

/-- The response handed back by `fetch`. -/
structure FetchResponse where
  ok : Bool
  status : Nat
  body : Json

/-- One outbound request; only the prompt matters to the claims. -/
structure GeminiRequest where
  prompt : String

/-- Outcome of one `summariseWithGemini` invocation.  `jsTypeError`
models the implicit TypeError raised by `raw.match` when the envelope's
text payload is a non-null, non-string JSON value. -/
inductive Outcome where
  | configError (msg : String)
  | httpError (msg : String)
  | ok (result : Json)
  | jsTypeError

/-- `summariseWithGemini`, with the network modelled explicitly: the
second component lists the requests issued during the run. -/
def summariseRun (key : Option String) (text : String) (lengthArg : Option String)
    (resp : FetchResponse) : Outcome × List GeminiRequest :=
  if keyFalsy key then
    (Outcome.configError "Missing VITE_GEMINI_API_KEY in .env.local", [])
  else
    let req : GeminiRequest := ⟨promptOf (targetOfArg lengthArg) text⟩
    if !resp.ok then
      (Outcome.httpError ("Gemini error " ++ toString resp.status), [req])
    else
      match rawOfEnvelope resp.body with
      | Json.str raw => (Outcome.ok (decodeReply raw), [req])
      | _ => (Outcome.jsTypeError, [req])

/-- ECMAScript `String.prototype.trim` whitespace: WhiteSpace plus
LineTerminator code points. -/
def isJsWhitespace (c : Char) : Bool :=
  let n := c.toNat
  n == 9 || n == 10 || n == 11 || n == 12 || n == 13 || n == 32 ||
  n == 160 || n == 5760 || (8192 ≤ n && n ≤ 8202) || n == 8232 ||
  n == 8233 || n == 8239 || n == 8287 || n == 12288 || n == 65279

/-- `text.trim()`. -/
def jsTrim (s : String) : String :=
  ⟨((s.data.dropWhile isJsWhitespace).reverse.dropWhile isJsWhitespace).reverse⟩

/-- The user-facing message set by `handleSummarise` when extraction
yields no text. -/
def emptyExtractionMsg : String :=
  "Could not extract any text from the document. It might be empty or unreadable."

/-- What `handleSummarise` does after extraction: halt with the
empty-content message, or run the summarisation client. -/
inductive RunOutcome where
  | halted (errorMsg : String)
  | summarised (out : Outcome)

/-- The post-extraction part of `handleSummarise`: `if (!text.trim())`
sets the error and returns before `summariseWithGemini`; otherwise the
untrimmed text is forwarded.  Requests issued are listed alongside. -/
def pipelineAfterExtract (key : Option String) (text : String) (lengthArg : Option String)
    (resp : FetchResponse) : RunOutcome × List GeminiRequest :=
  if jsTrim text = "" then
    (RunOutcome.halted emptyExtractionMsg, [])
  else
    let r := summariseRun key text lengthArg resp
    (RunOutcome.summarised r.1, r.2)

/-- `s.startsWith(p)`: the first characters of `s` are exactly `p`. -/
def jsStartsWith (s p : String) : Bool :=
  List.isPrefixOf p.data s.data

/-- The three text-acquisition strategies. -/
inductive Strategy where
  | pdfExtract
  | ocr
  | rawText

/-- The dispatcher `extractTextFromFile`: strict equality with
`"application/pdf"`, then `type?.startsWith("image/")` (optional
chaining: `undefined` is falsy), else plain-text decoding.  The declared
media type is `none` when absent. -/
def extractStrategy (fileType : Option String) : Strategy :=
  if fileType = some "application/pdf" then Strategy.pdfExtract
  else if (fileType.map (fun t => jsStartsWith t "image/")).getD false then Strategy.ocr
  else Strategy.rawText

/-- `extractPdfText`: a document is its pages in ascending page order,
each page the list of its text items' `str` fields.  Per page the items
are joined with `" "` (`Array.join`), and the page strings with
`"\n\n"`. -/
def extractPdfText (pages : List (List String)) : String :=
  String.intercalate "\n\n" (pages.map (fun items => String.intercalate " " items))

/-- Reference join following the spec's words: the fragments joined with
a single space. -/
def joinFragments : List String → String
  | [] => ""
  | [s] => s
  | s :: rest => s ++ " " ++ joinFragments rest

/-- Reference join following the spec's words: the per-page strings
joined to each other with a blank line. -/
def joinPages : List String → String
  | [] => ""
  | [p] => p
  | p :: rest => p ++ "\n\n" ++ joinPages rest

/-- Reference definition of structured-document extraction, written from
the spec's sentence rather than from the code. -/
def specPdfExtract (pages : List (List String)) : String :=
  joinPages (pages.map joinFragments)

/-- C1: the dispatcher checks the declared media type in priority order
(exact `"application/pdf"` first, then the `"image/"` prefix, else plain
text), selects exactly one strategy, and is total: every declared media
type, including an absent or empty one, selects a strategy. -/
theorem dispatch_routing_total (mt : Option String) :
    (mt = some "application/pdf" → extractStrategy mt = Strategy.pdfExtract) ∧
    (∀ s, mt = some s → s ≠ "application/pdf" → jsStartsWith s "image/" = true →
      extractStrategy mt = Strategy.ocr) ∧
    ((mt = none ∨ ∃ s, mt = some s ∧ s ≠ "application/pdf" ∧ jsStartsWith s "image/" = false) →
      extractStrategy mt = Strategy.rawText) ∧
    (extractStrategy mt = Strategy.pdfExtract ∨ extractStrategy mt = Strategy.ocr ∨
      extractStrategy mt = Strategy.rawText) := by
  refine ⟨?_, ?_, ?_, ?_⟩
  · intro h
    simp [extractStrategy, h]
  · intro s hmt hne himg
    subst hmt
    simp [extractStrategy, hne, himg]
  · intro h
    rcases h with h | ⟨s, hmt, hne, himg⟩
    · subst h
      simp [extractStrategy]
    · subst hmt
      simp [extractStrategy, hne, himg]
  · unfold extractStrategy
    split
    · exact Or.inl rfl
    · split
      · exact Or.inr (Or.inl rfl)
      · exact Or.inr (Or.inr rfl)

theorem dispatch_routing_total_witness :
    extractStrategy (some "application/pdf") = Strategy.pdfExtract ∧
    extractStrategy (some "image/png") = Strategy.ocr ∧
    extractStrategy none = Strategy.rawText ∧
    extractStrategy (some "") = Strategy.rawText :=
  ⟨(dispatch_routing_total (some "application/pdf")).1 rfl,
   (dispatch_routing_total (some "image/png")).2.1 "image/png" rfl (by decide) (by decide),
   (dispatch_routing_total none).2.2.1 (Or.inl rfl),
   (dispatch_routing_total (some "")).2.2.1 (Or.inr ⟨"", rfl, by decide, by decide⟩)⟩

/-- C2: when the extracted text trims to empty the pipeline halts with
the "could not extract any text" message and issues no remote request;
otherwise the untrimmed text is exactly what is forwarded to the
summarisation client. -/
theorem empty_input_short_circuit (key : Option String) (text : String)
    (lengthArg : Option String) (resp : FetchResponse) :
    (jsTrim text = "" → pipelineAfterExtract key text lengthArg resp =
      (RunOutcome.halted emptyExtractionMsg, [])) ∧
    (jsTrim text ≠ "" → pipelineAfterExtract key text lengthArg resp =
      (RunOutcome.summarised (summariseRun key text lengthArg resp).1,
        (summariseRun key text lengthArg resp).2)) := by
  constructor
  · intro h
    simp [pipelineAfterExtract, h]
  · intro h
    simp [pipelineAfterExtract, h]

theorem empty_input_short_circuit_witness :
    jsTrim " \t\n " = "" ∧
    pipelineAfterExtract none " \t\n " none ⟨true, 200, Json.obj []⟩ =
      (RunOutcome.halted emptyExtractionMsg, []) ∧
    pipelineAfterExtract none "hi" none ⟨true, 200, Json.obj []⟩ =
      (RunOutcome.summarised (summariseRun none "hi" none ⟨true, 200, Json.obj []⟩).1,
        (summariseRun none "hi" none ⟨true, 200, Json.obj []⟩).2) :=
  ⟨rfl,
   (empty_input_short_circuit none " \t\n " none ⟨true, 200, Json.obj []⟩).1 rfl,
   (empty_input_short_circuit none "hi" none ⟨true, 200, Json.obj []⟩).2 (by decide)⟩

/-- C7: with an absent or empty credential the client fails at once with
the configuration error and issues no network request. -/
theorem missing_credential_no_call (key : Option String) (text : String)
    (lengthArg : Option String) (resp : FetchResponse) (h : keyFalsy key = true) :
    summariseRun key text lengthArg resp =
      (Outcome.configError "Missing VITE_GEMINI_API_KEY in .env.local", []) := by
  simp [summariseRun, h]

theorem missing_credential_no_call_witness :
    keyFalsy none = true ∧
    summariseRun none "doc" none ⟨true, 200, Json.obj []⟩ =
      (Outcome.configError "Missing VITE_GEMINI_API_KEY in .env.local", []) :=
  ⟨rfl, missing_credential_no_call none "doc" none ⟨true, 200, Json.obj []⟩ rfl⟩

/-- The well-formed reply of decoding case (i). -/
def replyA : String := "\x7b\"summary\":\"A\",\"key_points\":[\"x\",\"y\"]\x7d"

/-- The parse of `replyA`. -/
def parsedA : Json :=
  Json.obj [("summary", Json.str "A"), ("key_points", Json.arr [Json.str "x", Json.str "y"])]

/-- Case (ii): the same JSON object embedded in surrounding prose. -/
def replyProse : String := "Sure! Here is the JSON: " ++ replyA ++ " Hope that helps."

/-- Case (iii): a reply with no JSON-like substring. -/
def replyNoJson : String := "not json at all"

/-- Case (iv): a JSON-like substring that fails to parse. -/
def replyBadJson : String := "\x7b\"summary\": invalid\x7d"

/-- C3: decoding is total — every raw reply decodes either to the parse
of its JSON-like substring or to the fallback object, never to a raised
error — and the four decoding cases behave as claimed. -/
theorem decode_fallback_chain :
    (∀ raw : String, decodeReply raw = fallbackResult raw ∨
      ∃ m j, jsonLikeMatch raw = some m ∧ jsonParse m = some j ∧ decodeReply raw = j) ∧
    decodeReply replyA = parsedA ∧
    decodeReply replyProse = parsedA ∧
    decodeReply replyNoJson = fallbackResult replyNoJson ∧
    decodeReply replyBadJson = fallbackResult replyBadJson := by
  refine ⟨?_, rfl, rfl, rfl, rfl⟩
  intro raw
  cases h1 : jsonLikeMatch raw with
  | none => exact Or.inl (by simp [decodeReply, h1])
  | some m =>
    cases h2 : jsonParse m with
    | none => exact Or.inl (by simp [decodeReply, h1, h2])
    | some j => exact Or.inr ⟨m, j, rfl, h2, by simp [decodeReply, h1, h2]⟩

/-- C4 counterexample: with the payload absent, the raw reply becomes
the two-character string of braces (not the empty string), which parses
to the empty JSON object (not the fallback pair with an empty
summary). -/
theorem absent_payload_counterexample :
    navigateText (Json.obj []) = none ∧
    rawOfEnvelope (Json.obj []) = Json.str "\x7b\x7d" ∧
    Json.str "\x7b\x7d" ≠ Json.str "" ∧
    decodeReply "\x7b\x7d" = Json.obj [] ∧
    Json.obj [] ≠ fallbackResult "" := by
  refine ⟨rfl, rfl, ?_, rfl, ?_⟩
  · intro h
    injection h with h1
    exact absurd h1 (by decide)
  · intro h
    rw [fallbackResult] at h
    injection h with h1
    exact List.noConfusion h1

/-- C4 amended: when the payload is absent from (or null in) the
envelope, the decoder substitutes the literal brace string, whose
JSON-like substring parses successfully, so decoding yields the empty
JSON object — not the empty-summary fallback pair. -/
theorem absent_payload_brace_default (env : Json)
    (h : navigateText env = none ∨ navigateText env = some Json.null) :
    rawOfEnvelope env = Json.str "\x7b\x7d" ∧
    decodeReply "\x7b\x7d" = Json.obj [] := by
  constructor
  · unfold rawOfEnvelope
    rcases h with h | h <;> rw [h]
  · rfl

theorem absent_payload_brace_default_witness :
    navigateText (Json.obj []) = none ∧
    (rawOfEnvelope (Json.obj []) = Json.str "\x7b\x7d" ∧
      decodeReply "\x7b\x7d" = Json.obj []) :=
  ⟨rfl, absent_payload_brace_default (Json.obj []) (Or.inl rfl)⟩

/-- A model reply that parses but is not a well-formed summary pair. -/
def badReply : String := "\x7b\"summary\":5,\"key_points\":3\x7d"

/-- A provider envelope carrying `badReply` as its text payload. -/
def badEnvelope : Json :=
  Json.obj [("candidates", Json.arr [Json.obj [("content",
    Json.obj [("parts", Json.arr [Json.obj [("text", Json.str badReply)]])])]])]

/-- C5 counterexample: a full client run on a reply whose JSON parses to
numeric fields returns that object as the result, and it is not a
well-formed pair (its `summary` is not a string and its `key_points` is
not an array of strings). -/
theorem summary_shape_counterexample :
    (summariseRun (some "k") "doc" none ⟨true, 200, badEnvelope⟩).1 =
      Outcome.ok (decodeReply badReply) ∧
    decodeReply badReply =
      Json.obj [("summary", Json.num "5"), ("key_points", Json.num "3")] ∧
    isWellFormedPair (decodeReply badReply) = false :=
  ⟨rfl, rfl, rfl⟩

/-- C5 amended: whenever decoding falls back (no JSON-like substring, or
its parse fails), the result is the well-formed pair with the raw reply
as summary and no key points; a successful parse is returned without
field validation, so only the fallback shape is guaranteed. -/
theorem summary_fallback_shape (raw : String)
    (h : ∀ m, jsonLikeMatch raw = some m → jsonParse m = none) :
    decodeReply raw = fallbackResult raw ∧
    isWellFormedPair (fallbackResult raw) = true := by
  constructor
  · cases h1 : jsonLikeMatch raw with
    | none => simp [decodeReply, h1]
    | some m => simp [decodeReply, h1, h m h1]
  · rfl

theorem summary_fallback_shape_witness :
    decodeReply "\x7b oops \x7d" = fallbackResult "\x7b oops \x7d" ∧
    isWellFormedPair (fallbackResult "\x7b oops \x7d") = true :=
  summary_fallback_shape "\x7b oops \x7d" (by
    intro m hm
    rw [show jsonLikeMatch "\x7b oops \x7d" = some "\x7b oops \x7d" from rfl] at hm
    injection hm with h
    subst h
    rfl)

/-- C6: the outbound prompt embeds exactly the bounded text: the text
itself when its length is at or below 180000 characters, else exactly
its first 180000 characters (the prefix whose remainder is the dropped
excess). -/
theorem truncation_boundary (target text : String) :
    promptOf target text =
      promptHead ++ target ++ promptMid ++ sliceBound text ++ promptTail ∧
    (text.length ≤ 180000 → sliceBound text = text) ∧
    (180000 < text.length → (sliceBound text).length = 180000 ∧
      sliceBound text ++ String.mk (text.data.drop 180000) = text) := by
  refine ⟨rfl, ?_, ?_⟩
  · intro h
    exact String.ext (List.take_of_length_le h)
  · intro h
    constructor
    · show (text.data.take 180000).length = 180000
      rw [List.length_take]
      exact Nat.min_eq_left (Nat.le_of_lt h)
    · show String.mk (text.data.take 180000 ++ text.data.drop 180000) = text
      rw [List.take_append_drop]

/-- A text one character over the truncation bound. -/
def longText : String := ⟨List.replicate 180001 'a'⟩

theorem truncation_boundary_witness :
    ("abc".length ≤ 180000 ∧ sliceBound "abc" = "abc") ∧
    (180000 < longText.length ∧ ((sliceBound longText).length = 180000 ∧
      sliceBound longText ++ String.mk (longText.data.drop 180000) = longText)) := by
  have h1 : "abc".length ≤ 180000 := by decide
  have h2 : 180000 < longText.length := by
    show 180000 < (List.replicate 180001 'a').length
    rw [List.length_replicate]
    decide
  exact ⟨⟨h1, (truncation_boundary "t" "abc").2.1 h1⟩,
    ⟨h2, (truncation_boundary "t" longText).2.2 h2⟩⟩

/-- C8 counterexample: `"constructor"` is recognized by none of the
three length values, yet the lookup finds the truthy inherited `Object`
constructor, so the `||` fallback never fires and the interpolated
directive is not the medium directive. -/
theorem length_prototype_counterexample :
    "constructor" ≠ "short" ∧ "constructor" ≠ "medium" ∧ "constructor" ≠ "long" ∧
    lengthTarget "constructor" = TargetValue.protoMember "constructor" ∧
    targetOf "constructor" = "function Object() \x7b [native code] \x7d" ∧
    targetOf "constructor" ≠ "≈150-250 words" :=
  ⟨by decide, by decide, by decide, rfl, rfl, by decide⟩

/-- C8 amended: the three length values map to their word-count
directives; an omitted length, or an unrecognized value that is not a
property name inherited from `Object.prototype`, falls back to the
medium directive; an inherited name short-circuits the `||` through the
truthy inherited member, whose rendering is embedded instead; the
interpolated directive is embedded in the outbound prompt. -/
theorem length_mapping_amended (text : String) :
    targetOf "short" = "≈80-120 words" ∧
    targetOf "long" = "≈300-450 words" ∧
    targetOf "medium" = "≈150-250 words" ∧
    targetOfArg none = "≈150-250 words" ∧
    (∀ len : String, len ≠ "short" → len ≠ "medium" → len ≠ "long" →
      len ∉ objectProtoProps → targetOf len = "≈150-250 words") ∧
    (∀ len : String, len ∈ objectProtoProps →
      lengthTarget len = TargetValue.protoMember len) ∧
    (∀ len : String, ∃ a b, promptOf (targetOf len) text = a ++ targetOf len ++ b) := by
  refine ⟨rfl, rfl, rfl, rfl, ?_, ?_, ?_⟩
  · intro len h1 h2 h3 h4
    simp [targetOf, lengthTarget, renderTarget, h1, h2, h3, h4]
  · intro len h
    fin_cases h <;> rfl
  · intro len
    refine ⟨promptHead, promptMid ++ sliceBound text ++ promptTail, ?_⟩
    simp [promptOf, String.append_assoc]

theorem length_mapping_amended_witness :
    targetOf "verbose" = "≈150-250 words" ∧
    lengthTarget "toString" = TargetValue.protoMember "toString" ∧
    (∃ a b, promptOf (targetOf "short") "doc" = a ++ targetOf "short" ++ b) :=
  ⟨(length_mapping_amended "doc").2.2.2.2.1 "verbose" (by decide) (by decide) (by decide)
    (by decide),
   (length_mapping_amended "doc").2.2.2.2.2.1 "toString" (by decide),
   (length_mapping_amended "doc").2.2.2.2.2.2 "short"⟩

/-- Right-recursive join with a separator, the shape the spec describes. -/
def joinWith (sep : String) : List String → String
  | [] => ""
  | [s] => s
  | s :: rest => s ++ sep ++ joinWith sep rest

/-- The separator-prefixed tail of a join. -/
def sepTail (sep : String) : List String → String
  | [] => ""
  | s :: rest => sep ++ s ++ sepTail sep rest

theorem intercalate_go_eq (sep : String) (as : List String) (acc : String) :
    String.intercalate.go acc sep as = acc ++ sepTail sep as := by
  induction as generalizing acc with
  | nil => simp [String.intercalate.go, sepTail]
  | cons a as ih =>
    rw [String.intercalate.go, ih]
    simp [sepTail, String.append_assoc]

theorem joinWith_eq_sepTail (sep : String) (as : List String) (a : String) :
    a ++ sepTail sep as = joinWith sep (a :: as) := by
  induction as generalizing a with
  | nil => simp [sepTail, joinWith]
  | cons b bs ih =>
    show a ++ (sep ++ b ++ sepTail sep bs) = a ++ sep ++ joinWith sep (b :: bs)
    rw [← ih b]
    simp [String.append_assoc]

theorem intercalate_eq_joinWith (sep : String) (l : List String) :
    String.intercalate sep l = joinWith sep l := by
  cases l with
  | nil => rfl
  | cons a as =>
    rw [String.intercalate, intercalate_go_eq, joinWith_eq_sepTail]

theorem joinWith_space (l : List String) : joinWith " " l = joinFragments l := by
  induction l with
  | nil => rfl
  | cons s rest ih =>
    cases rest with
    | nil => rfl
    | cons t ts =>
      show s ++ " " ++ joinWith " " (t :: ts) = s ++ " " ++ joinFragments (t :: ts)
      rw [ih]

theorem joinWith_blank (l : List String) : joinWith "\n\n" l = joinPages l := by
  induction l with
  | nil => rfl
  | cons s rest ih =>
    cases rest with
    | nil => rfl
    | cons t ts =>
      show s ++ "\n\n" ++ joinWith "\n\n" (t :: ts) = s ++ "\n\n" ++ joinPages (t :: ts)
      rw [ih]

/-- C9: structured-document extraction equals the reference definition
written from the spec (per page the fragments joined with one space, the
page strings joined with a blank line, ascending page order), and
re-extraction of the same document is byte-identical. -/
theorem pdf_extraction_refines_spec (pages : List (List String)) :
    extractPdfText pages = specPdfExtract pages ∧
    extractPdfText pages = extractPdfText pages := by
  refine ⟨?_, rfl⟩
  unfold extractPdfText specPdfExtract
  have hfrag : (fun items => String.intercalate " " items) = joinFragments := by
    funext items
    rw [intercalate_eq_joinWith, joinWith_space]
  rw [hfrag, intercalate_eq_joinWith, joinWith_blank]

/-- C10: a document with zero pages extracts to the empty string, and
the pipeline then halts with the no-readable-content message without
issuing a remote request. -/
theorem zero_page_document_halts (key : Option String) (lengthArg : Option String)
    (resp : FetchResponse) :
    extractPdfText [] = "" ∧
    pipelineAfterExtract key (extractPdfText []) lengthArg resp =
      (RunOutcome.halted emptyExtractionMsg, []) := by
  refine ⟨rfl, ?_⟩
  show pipelineAfterExtract key "" lengthArg resp = _
  simp [pipelineAfterExtract, show jsTrim "" = "" from rfl]

end DocSummariser
